import Mathlib

/-
Verification of the rankPrivateVPNServers repository (rankpvpn.py) against its
natural-language specification.  Python code is shallowly embedded: Python str
methods are modelled by explicit functions on character lists, Python floats
(times, rates) by rationals, a missing dict key by an Option field whose access
raises a KeyError value, and Python exceptions by Except results.
-/

deriving instance DecidableEq for Except

/-- Python exceptions that the embedded fragments can raise.  osError stands
for the OSError family raised by the reachability probe of the rate worker
(such as a PermissionError opening the raw ICMP socket in the MultiPing
constructor, or a gaierror resolving the url string in send), which no
except clause in the worker catches. -/
inductive PyError where
  | keyError
  | zeroDivisionError
  | osError
deriving DecidableEq

/-- Model of Python str.upper: uppercase every character. -/
def pyUpper (s : String) : String := ⟨s.data.map Char.toUpper⟩

/-- Model of Python s.replace applied with a newline pattern and empty
replacement, as in the source: it deletes every newline character. -/
def pyRemoveNl (s : String) : String := ⟨s.data.filter (fun c => c ≠ '\x0a')⟩

/-- Model of Python str.strip: drop leading and trailing whitespace. -/
def pyStrip (s : String) : String :=
  ⟨((s.data.dropWhile Char.isWhitespace).reverse.dropWhile Char.isWhitespace).reverse⟩

/-- Helper for pySplitOnChar, working on character lists.  Mirrors the Python
str.split behaviour with a one-character separator: splitting the empty string
gives one empty field, and every separator occurrence opens a new field. -/
def splitCharAux (c : Char) : List Char → List (List Char)
  | [] => [[]]
  | x :: xs =>
    if x = c then [] :: splitCharAux c xs
    else
      match splitCharAux c xs with
      | h :: t => (x :: h) :: t
      | [] => [[x]]

/-- Model of Python s.split with a one-character separator. -/
def pySplitOnChar (c : Char) (s : String) : List String :=
  (splitCharAux c s.data).map (fun l => ⟨l⟩)

/-- Lexicographic comparison of character lists by code point;  helper for
pyStrLt. -/
def charListLt : List Char → List Char → Bool
  | [], [] => false
  | [], _ :: _ => true
  | _ :: _, [] => false
  | a :: as, b :: bs => if a < b then true else if b < a then false else charListLt as bs

/-- Model of the Python string comparison used by list.sort: lexicographic by
code point. -/
def pyStrLt (a b : String) : Bool := charListLt a.data b.data

/-- One server record, as built by get_server_data (rankpvpn.py lines 104-113).
The eight string fields are always present.  The fields protocol, last_sync,
delay and score are never produced by get_server_data but are read by filter
and sort; they are modelled as optional so that an absent field can be
distinguished: reading an absent field raises a Python KeyError. -/
structure Mirror where
  country : String
  country_code : String
  city : String
  url : String
  port_tap : String
  port_tun : String
  proxy_socks : String
  proxy_http : String
  protocol : Option String := none
  last_sync : Option ℚ := none
  delay : Option ℚ := none
  score : Option ℚ := none
deriving DecidableEq

/-- Reading the protocol key of a record dict (filter, line 302). -/
def Mirror.getProtocol (m : Mirror) : Except PyError String :=
  match m.protocol with
  | some p => .ok p
  | none => .error .keyError

/-- Reading the last_sync key of a record dict (filter, line 321). -/
def Mirror.getLastSync (m : Mirror) : Except PyError ℚ :=
  match m.last_sync with
  | some q => .ok q
  | none => .error .keyError

/-- The pycountry lookup tables used by get_country_code, abstracted: each
lookup either finds an alpha_2 code or misses.  In the source a miss surfaces
as the KeyError that each except branch catches (lines 64-83). -/
structure CountryDB where
  byName : String → Option String
  byCommon : String → Option String
  byOfficial : String → Option String

/-- The static alias branch of get_country_code (lines 74-81): the innermost
except falls back to three hardcoded aliases and then the sentinel. -/
def countryAlias (country : String) : String :=
  if country = "Russia" then "RU"
  else if country = "South Korea" then "KR"
  else if country = "USA" then "US"
  else "ERROR"

/-- Embedding of get_country_code (rankpvpn.py lines 64-83): try the exact
name lookup, then the common name, then the official name; if all three miss,
use the alias table or the sentinel ERROR.  Every miss in the source raises a
KeyError that is caught, so the function is total. -/
def get_country_code (db : CountryDB) (country : String) : String :=
  match db.byName country with
  | some cc => cc
  | none =>
    match db.byCommon country with
    | some cc => cc
    | none =>
      match db.byOfficial country with
      | some cc => cc
      | none => countryAlias country

/-- One tr element of the parsed HTML table: the text contents of its td
cells.  Header rows (th cells only) have an empty td list. -/
structure HtmlRow where
  tds : List String
deriving DecidableEq

/-- The snapshot dict built by get_server_data (lines 116-123). -/
structure Snapshot where
  title : String
  version : ℕ
  headers : List String
  last_check : String
  total : ℕ
  servers : List Mirror
deriving DecidableEq

/-- Cell cleanup used for columns 1 to 5 of a data row:
tds[i].text.replace and strip (lines 108-112). -/
def cleanCell (s : String) : String := pyStrip (pyRemoveNl s)

/-- Embedding of the body of the row loop of get_server_data (lines 97-113):
a row contributes a record exactly when it has six td cells; the first cell is
split on a dash into country and optional city. -/
def parseRow (db : CountryDB) (r : HtmlRow) : Option Mirror :=
  match r.tds with
  | [td0, td1, td2, td3, td4, td5] =>
    let tmp := pySplitOnChar '-' (pyRemoveNl td0)
    let country := pyStrip (tmp.headD "")
    let city := match tmp with
      | _ :: c :: _ => pyStrip c
      | _ => ""
    some
      { country := country
        country_code := get_country_code db country
        city := city
        url := cleanCell td1
        port_tap := cleanCell td2
        port_tun := cleanCell td3
        proxy_socks := cleanCell td4
        proxy_http := cleanCell td5 }
  | _ => none

/-- Embedding of get_server_data (rankpvpn.py lines 86-123).  Inputs are the
parsed table pieces: the thead texts, all tr rows of the table, and the
formatted utcnow timestamp.  Note that the total field is the number of tr
rows found (line 121), while servers keeps only rows with six td cells. -/
def get_server_data (db : CountryDB) (headers : List String) (rows : List HtmlRow)
    (dt : String) : Snapshot :=
  { title := "PrivateVPN Server list"
    version := 1
    headers := headers
    last_check := dt
    total := rows.length
    servers := rows.filterMap (parseRow db) }

/-- Python truthiness of an optional list argument: None and the empty list
are falsy, as in the conditions if countries, if include, if exclude and if
protocols of filter. -/
def pyTruthyList (o : Option (List String)) : Bool :=
  match o with
  | some (_ :: _) => true
  | _ => false

/-- Python truthiness of an optional number: None and 0 are falsy, as in the
condition if age of filter (line 321). -/
def pyTruthyNum (o : Option ℚ) : Bool :=
  match o with
  | some a => decide (a ≠ 0)
  | none => false

/-- Python truthiness of the country variable of get_mirrorlist: None and the
empty string are falsy. -/
def pyTruthyStr (o : Option String) : Bool :=
  match o with
  | some s => !s.isEmpty
  | none => false

/-- Country criterion of filter (lines 291-300): when the countries argument
is truthy, the uppercased country or country code must be in the uppercased
argument tuple. -/
def keepCountriesB (countries : Option (List String)) (m : Mirror) : Bool :=
  let uc := (countries.getD []).map pyUpper
  if pyTruthyList countries then
    uc.contains (pyUpper m.country) || uc.contains (pyUpper m.country_code)
  else true

/-- Protocol criterion of filter (line 302): when the protocols argument is
truthy the record dict is read at the protocol key, raising KeyError when the
field is absent. -/
def keepProtocolsE (protocols : Option (List String)) (m : Mirror) : Except PyError Bool :=
  if pyTruthyList protocols then
    match m.getProtocol with
    | .error e => .error e
    | .ok p => .ok ((protocols.getD []).contains p)
  else .ok true

/-- Include criterion of filter (lines 306-311): pass when at least one of
the patterns matches the url.  The regex matcher re.search is abstracted as
the function argument research. -/
def keepIncludeB (research : String → String → Bool) (incl : Option (List String))
    (m : Mirror) : Bool :=
  if pyTruthyList incl then (incl.getD []).any (fun r => research r m.url)
  else true

/-- Exclude criterion of filter (lines 312-319): pass when no pattern
matches the url. -/
def keepExcludeB (research : String → String → Bool) (excl : Option (List String))
    (m : Mirror) : Bool :=
  if pyTruthyList excl then !(excl.getD []).any (fun r => research r m.url)
  else true

/-- Age criterion of filter (lines 320-322): when the age argument is truthy
the record dict is read at the last_sync key (raising KeyError when absent)
and the record is skipped when t exceeds age hours plus the sync time. -/
def keepAgeE (t : ℚ) (age : Option ℚ) (m : Mirror) : Except PyError Bool :=
  if pyTruthyNum age then
    match m.getLastSync with
    | .error e => .error e
    | .ok ls => .ok (!decide (t > age.getD 0 * 3600 + ls))
  else .ok true

/-- Sequencing of filter stages: an earlier continue skips the later
criteria, and an earlier exception prevents them from being evaluated. -/
def stageSeq (a : Except PyError Bool) (rest : Unit → Except PyError Bool) :
    Except PyError Bool :=
  match a with
  | .error e => .error e
  | .ok false => .ok false
  | .ok true => rest ()

/-- Decision of the filter loop body for one record (lines 293-325), with the
criteria evaluated in source order: countries, protocols, include, exclude,
age.  The result is ok true when the record is yielded, ok false when a
continue skips it, and an error when a dict access raises. -/
def ServerStatus.filterKeep (research : String → String → Bool) (t : ℚ)
    (countries incl excl : Option (List String)) (age : Option ℚ)
    (protocols : Option (List String)) (m : Mirror) : Except PyError Bool :=
  if keepCountriesB countries m then
    stageSeq (keepProtocolsE protocols m) (fun _ =>
      if keepIncludeB research incl m then
        if keepExcludeB research excl m then
          keepAgeE t age m
        else .ok false
      else .ok false)
  else .ok false

/-- Embedding of ServerStatus.filter (rankpvpn.py lines 275-325) on a record
list: the sequence of records the generator yields, or the exception its
consumption raises.  The time t stands for the single time.time() call at
line 288. -/
def ServerStatus.filter (research : String → String → Bool) (t : ℚ)
    (mirrors : List Mirror) (countries incl excl : Option (List String))
    (age : Option ℚ) (protocols : Option (List String)) :
    Except PyError (List Mirror) :=
  match mirrors with
  | [] => .ok []
  | m :: ms =>
    match ServerStatus.filterKeep research t countries incl excl age protocols m with
    | .error e => .error e
    | .ok true =>
      (ServerStatus.filter research t ms countries incl excl age protocols).map (m :: ·)
    | .ok false => ServerStatus.filter research t ms countries incl excl age protocols

/-- A Python generator object over records: it holds the items not yet
consumed.  Iterating it drains it. -/
structure PyGen where
  items : List Mirror
deriving DecidableEq

/-- Fully iterating a generator returns its remaining items and leaves it
exhausted. -/
def PyGen.iterate (g : PyGen) : List Mirror × PyGen := (g.items, ⟨[]⟩)

/-- The value returned by a call to ServerStatus.filter: a generator object
over the records the generator will yield. -/
def ServerStatus.filterGen (research : String → String → Bool) (t : ℚ)
    (mirrors : List Mirror) (countries incl excl : Option (List String))
    (age : Option ℚ) (protocols : Option (List String)) :
    Except PyError PyGen :=
  (ServerStatus.filter research t mirrors countries incl excl age protocols).map PyGen.mk

/-- Stable insertion into a sorted list: the inserted element goes before the
first element it compares le to.  Helper for sSort. -/
def sInsert {α : Type} (le : α → α → Bool) (a : α) : List α → List α
  | [] => [a]
  | b :: l => if le a b then a :: b :: l else b :: sInsert le a l

/-- Stable sort by a boolean comparison, modelling the semantics of the
stable Python list.sort: any stable sort agreeing with the total preorder le
produces the same list. -/
def sSort {α : Type} (le : α → α → Bool) : List α → List α
  | [] => []
  | a :: l => sInsert le a (sSort le l)

/-- The rates dict of ServerStatus.rate (lines 367 and 455), built by the
collection loop from the drained output queue entries in their arrival
order: later assignments to the same url overwrite earlier ones. -/
def ratesDict (arrivals : List (String × ℚ)) : String → Option ℚ :=
  arrivals.foldl (fun d p => Function.update d p.1 (some p.2)) (fun _ => none)

/-- Looking up the rate recorded for a url once every probe result has been
collected.  The join at line 438 guarantees one entry per url, so the lookup
is modelled as total with a zero default for urls that were never probed. -/
def ratesFromArrivals (arrivals : List (String × ℚ)) (u : String) : ℚ :=
  (ratesDict arrivals u).getD 0

/-- Embedding of the final phase of ServerStatus.rate (lines 357-462) given
the collected url to rate mapping: return an empty input unchanged, put the
records with positive rate first sorted by rate descending (stable), and
append the records with zero rate in input order. -/
def ServerStatus.rate (rates : String → ℚ) (mirrors : List Mirror) : List Mirror :=
  if mirrors.isEmpty then mirrors
  else
    let rated := mirrors.filter (fun m => decide (0 < rates m.url))
    let ratedSorted := sSort (fun a b => decide (rates b.url ≤ rates a.url)) rated
    ratedSorted ++ mirrors.filter (fun m => decide (rates m.url = 0))

/-- The sort keys accepted by ServerStatus.sort (lines 335-341); unknown
covers any other value of the by argument, for which the list is returned
unchanged. -/
inductive SortBy where
  | age
  | rate
  | country
  | country_code
  | delay
  | score
  | unknown
deriving DecidableEq

/-- Key extraction pass of Python list.sort with a key function: every key is
obtained in list order, and the first record whose field access raises stops
the sort with that exception. -/
def keyedList {κ : Type} (key : Mirror → Except PyError κ) :
    List Mirror → Except PyError (List (κ × Mirror))
  | [] => .ok []
  | m :: ms =>
    match key m with
    | .error e => .error e
    | .ok k => (keyedList key ms).map ((k, m) :: ·)

/-- Python list.sort with a key function and optional reverse flag, given a
strict comparison on keys.  CPython first obtains every key and then sorts
stably using only strict comparisons, with reverse giving the stable
descending order. -/
def pySortByKey {κ : Type} (lt : κ → κ → Bool) (reverse : Bool)
    (key : Mirror → Except PyError κ) (l : List Mirror) :
    Except PyError (List Mirror) :=
  match keyedList key l with
  | .error e => .error e
  | .ok keyed =>
    .ok ((sSort (fun a b =>
      if reverse then !lt a.1 b.1 else !lt b.1 a.1) keyed).map Prod.snd)

/-- Rational key comparison for list.sort. -/
def qLt (a b : ℚ) : Bool := decide (a < b)

/-- Embedding of the dispatch of ServerStatus.sort (lines 335-341) on a
materialized list: by age sorts descending on last_sync, by rate delegates to
ServerStatus.rate, and the four field keys sort ascending; any other key
returns the list unchanged. -/
def ServerStatus.sortList (rates : String → ℚ) (mirrors : List Mirror) :
    SortBy → Except PyError (List Mirror)
  | .age => pySortByKey qLt true (fun m => m.getLastSync) mirrors
  | .rate => .ok (ServerStatus.rate rates mirrors)
  | .country => pySortByKey pyStrLt false (fun m => .ok m.country) mirrors
  | .country_code => pySortByKey pyStrLt false (fun m => .ok m.country_code) mirrors
  | .delay =>
    pySortByKey qLt false (fun m =>
      match m.delay with | some q => .ok q | none => .error .keyError) mirrors
  | .score =>
    pySortByKey qLt false (fun m =>
      match m.score with | some q => .ok q | none => .error .keyError) mirrors
  | .unknown => .ok mirrors

/-- ServerStatus.sort invoked with mirrors=None (lines 329-341): the local
variable aliases the snapshot list self.json_obj at the servers key, the
isinstance test sees a list, and the in-place list.sort branches reorder that
very list.  The result pairs the snapshot server list after the call with the
returned list.  The by rate branch rebinds the local name to a fresh list
built by ServerStatus.rate, and an unknown key sorts nothing, so in those two
cases the snapshot is untouched. -/
def ServerStatus.sortStore (rates : String → ℚ) (snap : List Mirror) :
    SortBy → Except PyError (List Mirror × List Mirror)
  | .rate => (ServerStatus.sortList rates snap .rate).map (fun l => (snap, l))
  | .unknown => .ok (snap, snap)
  | b => (ServerStatus.sortList rates snap b).map (fun l => (l, l))

/-- ServerStatus.sort invoked on a generator argument (line 332-333): the
generator is materialized into a fresh list, so the snapshot list snap is
never touched. -/
def ServerStatus.sortGen (rates : String → ℚ) (snap : List Mirror) (g : PyGen)
    (b : SortBy) : Except PyError (List Mirror × List Mirror) :=
  (ServerStatus.sortList rates g.items b).map (fun l => (snap, l))

/-- ServerStatus.filter invoked on the snapshot list: the generator only
reads the records, the snapshot list is returned unchanged next to the
resulting generator or exception. -/
def ServerStatus.filterStore (research : String → String → Bool) (t : ℚ)
    (snap : List Mirror) (countries incl excl : Option (List String))
    (age : Option ℚ) (protocols : Option (List String)) :
    List Mirror × Except PyError PyGen :=
  (snap, ServerStatus.filterGen research t snap countries incl excl age protocols)

/-- A Python value held in self.json_obj: either a parsed snapshot dict
(always truthy, the dict built by get_server_data has six keys) or some other
cache payload with its own truthiness. -/
inductive PyVal where
  | snap (s : Snapshot)
  | raw (truthy : Bool)
deriving DecidableEq

/-- Python truthiness of the optional json_obj attribute, as tested by the
condition if not self.json_obj (line 223). -/
def pyTruthyVal (o : Option PyVal) : Bool :=
  match o with
  | none => false
  | some (.snap _) => true
  | some (.raw t) => t

/-- Outcome of the os.path.getmtime call on the cache file (line 210): a
modification time, a missing file (ENOENT, silently skipped at line 220), or
another OSError (re-raised as a ServerStatusError). -/
inductive CacheStat where
  | found (mtime : ℚ)
  | missing
  | statErr
deriving DecidableEq

/-- Outcome of opening and json-loading the cache file (lines 213-214): a
value, an IOError (turned into a ServerStatusError at line 218), or a json
decode error (a ValueError, which no except clause at this site catches). -/
inductive CacheLoad where
  | ok (v : PyVal)
  | ioErr
  | parseErr
deriving DecidableEq

/-- Outcome of one get_server_data() call inside retrieve (lines 226-227):
a snapshot, a caught URLError or socket timeout, a caught ValueError, or any
other exception, which propagates uncaught. -/
inductive FetchOutcome where
  | ok (v : PyVal)
  | urlErr
  | valErr
  | exc
deriving DecidableEq

/-- The ServerStatusError messages retrieve can raise, by raise site. -/
inductive RErr where
  | mtimeFail
  | loadFail
  | retrieveFail
  | parseFail
  | cacheWriteFail
deriving DecidableEq

/-- How one run of retrieve ends: normal return, a ServerStatusError, or an
uncaught Python exception. -/
inductive RResult where
  | ok
  | sse (e : RErr)
  | pyexc
deriving DecidableEq

/-- The environment of one retrieve run: the wall clock, what the cache file
stat and load would yield, what each of the two get_server_data calls would
yield (line 226 builds json_str, line 227 builds self.json_obj), and whether
the cache write would succeed. -/
structure RetrieveEnv where
  now : ℚ
  cacheStat : CacheStat
  cacheLoad : CacheLoad
  fetch1 : FetchOutcome
  fetch2 : FetchOutcome
  writeOk : Bool
deriving DecidableEq

/-- The observable state when retrieve ends: the json_obj and json_mtime
attributes (mutations before a raise persist on the object) and the way the
run ended. -/
structure RetrieveOut where
  jsonObj : Option PyVal
  jsonMtime : ℚ
  result : RResult
deriving DecidableEq

/-- Tail of retrieve from line 223 on: fetch fresh data when json_obj is
falsy, then write the cache if save_json is still set and json_str holds the
encoded text (a json encoding of a dict is a nonempty, truthy string). -/
def retrieveFetchAndSave (env : RetrieveEnv) (jsonObj : Option PyVal)
    (jsonMtime : ℚ) (saveJson : Bool) : RetrieveOut :=
  match
    (if pyTruthyVal jsonObj then
      -- fresh fetch skipped; json_str stays None
      Except.ok (jsonObj, jsonMtime, false)
    else
      match env.fetch1 with
      | .exc => Except.error RResult.pyexc
      | .urlErr => Except.error (RResult.sse .retrieveFail)
      | .valErr => Except.error (RResult.sse .parseFail)
      | .ok _ =>
        match env.fetch2 with
        | .exc => Except.error RResult.pyexc
        | .urlErr => Except.error (RResult.sse .retrieveFail)
        | .valErr => Except.error (RResult.sse .parseFail)
        | .ok v2 => Except.ok (some v2, env.now, true)) with
  | .error r => { jsonObj := jsonObj, jsonMtime := jsonMtime, result := r }
  | .ok (obj, mt, jsonStrSet) =>
    if saveJson && jsonStrSet then
      if env.writeOk then { jsonObj := obj, jsonMtime := mt, result := .ok }
      else { jsonObj := obj, jsonMtime := mt, result := .sse .cacheWriteFail }
    else { jsonObj := obj, jsonMtime := mt, result := .ok }

/-- Embedding of ServerStatus.retrieve (rankpvpn.py lines 200-261).  The
argument stMtime is the json_mtime attribute before the call; cacheTimeout is
the configured cache timeout.  The cache branch runs only for a positive
timeout; a fresh stat plus successful load installs the cached object and
clears save_json, ENOENT falls through to a fresh fetch, and stat or read
errors raise.  The cache write failure at line 261 raises a
ServerStatusError even though the freshly fetched object is already
installed. -/
def ServerStatus.retrieve (cacheTimeout : ℚ) (stMtime : ℚ) (env : RetrieveEnv) :
    RetrieveOut :=
  if cacheTimeout > 0 then
    match env.cacheStat with
    | .statErr => { jsonObj := none, jsonMtime := stMtime, result := .sse .mtimeFail }
    | .missing => retrieveFetchAndSave env none stMtime true
    | .found mtime =>
      if env.now - mtime < cacheTimeout then
        match env.cacheLoad with
        | .ioErr => { jsonObj := none, jsonMtime := stMtime, result := .sse .loadFail }
        | .parseErr => { jsonObj := none, jsonMtime := stMtime, result := .pyexc }
        | .ok v => retrieveFetchAndSave env (some v) mtime false
      else retrieveFetchAndSave env none stMtime true
  else retrieveFetchAndSave env none stMtime false

/-- State of the mirrorlist loop of get_mirrorlist (lines 508-524): the text
built so far, the country tag last emitted, and the flag that records
whether any record was seen. -/
structure MLState where
  text : String
  country : Option String
  no_mirrors : Bool
deriving DecidableEq

/-- The Server entry line appended for one record (lines 150 and 524). -/
def serverEntry (m : Mirror) : String := "Server = " ++ m.url ++ "\x0a"

/-- One iteration of the mirrorlist loop (lines 512-524): clear the
no-mirrors flag, emit a country comment when requested and changed, then
append the Server entry for the record. -/
def mirrorlistStep (include_country : Bool) (st : MLState) (m : Mirror) : MLState :=
  let st1 : MLState := { st with no_mirrors := false }
  let st2 : MLState :=
    if include_country then
      let c := m.country ++ " [" ++ m.country_code ++ "]"
      if st1.country ≠ some c then
        { st1 with
          text :=
            (if pyTruthyStr st1.country then st1.text ++ "\x0a" else st1.text) ++
              "# " ++ c ++ "\x0a"
          country := some c }
      else st1
    else st1
  { st2 with text := st2.text ++ serverEntry m }

/-- Embedding of ServerStatus.get_mirrorlist (rankpvpn.py lines 470-529)
given the banner block built before the loop (lines 478-506, the header
borders and the With, When, From, Retrieved and Last Check lines) as the
string header.  The loop appends one Server entry per record, and the
function returns None exactly when the loop saw no record. -/
def ServerStatus.get_mirrorlist (header : String) (include_country : Bool)
    (mirrors : List Mirror) : Option String :=
  let st := mirrors.foldl (mirrorlistStep include_country) ⟨header, none, true⟩
  if st.no_mirrors then none else some st.text

/-- Protocol criterion as the total predicate a yielded record was tested
against: trivially true when the protocols argument is falsy, and requiring
membership of the present protocol field otherwise.  Used to state what
filter computes on records that do have the field. -/
def keepProtocolsB (protocols : Option (List String)) (m : Mirror) : Bool :=
  if pyTruthyList protocols then
    match m.protocol with
    | some p => (protocols.getD []).contains p
    | none => false
  else true

/-- Age criterion as the total predicate a yielded record was tested
against: trivially true when the age argument is falsy, and requiring the
present last_sync field to be recent enough otherwise. -/
def keepAgeB (t : ℚ) (age : Option ℚ) (m : Mirror) : Bool :=
  if pyTruthyNum age then
    match m.last_sync with
    | some ls => !decide (t > age.getD 0 * 3600 + ls)
    | none => false
  else true

/-- Conjunction of the five filter criteria in their applied form: a record
passes exactly when every truthy criterion holds for it. -/
def passesAll (research : String → String → Bool) (t : ℚ)
    (countries incl excl : Option (List String)) (age : Option ℚ)
    (protocols : Option (List String)) (m : Mirror) : Bool :=
  keepCountriesB countries m && keepProtocolsB protocols m &&
    keepIncludeB research incl m && keepExcludeB research excl m &&
    keepAgeB t age m

/-- The age criterion in the wording of the specification, for comparison
with what the code applies: a record with sync time ls satisfies a supplied
age bound a at time t when t - ls is at most a hours. -/
def ageCriterionSpec (t a ls : ℚ) : Prop := t - ls ≤ a * 3600

/-- Concatenation of a list of strings, used to state the shape of the
mirrorlist text. -/
def concatStrings : List String → String
  | [] => ""
  | s :: l => s ++ concatStrings l

/-- A regex matcher instance for concrete runs: no pattern matches. -/
def research0 : String → String → Bool := fun _ _ => false

/-- A country database instance for concrete runs: every lookup misses. -/
def db0 : CountryDB := ⟨fun _ => none, fun _ => none, fun _ => none⟩

/-- A rate mapping instance for concrete runs. -/
def rates0 : String → ℚ := fun _ => 0

/-- Record constructor for concrete runs. -/
def mkMirror (c cc u : String) : Mirror :=
  { country := c, country_code := cc, city := "", url := u,
    port_tap := "", port_tun := "", proxy_socks := "", proxy_http := "" }

/-- Concrete record with country AA. -/
def mA : Mirror := mkMirror "AA" "A1" "https://a.example/"

/-- Concrete record with country BB. -/
def mB : Mirror := mkMirror "BB" "B1" "https://b.example/"

/-- Concrete record carrying a last_sync field with value 0. -/
def mSync0 : Mirror := { mkMirror "SE" "SE" "https://se.example/" with last_sync := some 0 }

/-- Concrete record lacking the last_sync field. -/
def mNoSync : Mirror := mkMirror "SE" "SE" "https://se.example/"

/-- Concrete header row: a tr with th cells only, hence no td cell. -/
def rowHeader : HtmlRow := ⟨[]⟩

/-- Concrete data row with six td cells. -/
def rowData : HtmlRow := ⟨["Sweden", "se.example", "1194", "1195", "s", "h"]⟩

/-- Concrete retrieve environment: no cache file, both fetches succeed, the
cache write fails. -/
def envC2 : RetrieveEnv :=
  { now := 1000, cacheStat := .missing, cacheLoad := .parseErr,
    fetch1 := .ok (.raw true), fetch2 := .ok (.raw true), writeOk := false }

/-- Inserting with sInsert permutes the element onto the list. -/
theorem sInsert_perm {α : Type} (le : α → α → Bool) (a : α) (l : List α) :
    (sInsert le a l).Perm (a :: l) := by
  induction l with
  | nil => simp [sInsert]
  | cons b l ih =>
    simp only [sInsert]
    split
    · exact List.Perm.refl _
    · exact (ih.cons b).trans (List.Perm.swap a b l)

/-- sSort permutes its input. -/
theorem sSort_perm {α : Type} (le : α → α → Bool) (l : List α) :
    (sSort le l).Perm l := by
  induction l with
  | nil => simp [sSort]
  | cons a l ih => exact (sInsert_perm le a (sSort le l)).trans (ih.cons a)

/-- Membership in an sInsert result. -/
theorem mem_sInsert {α : Type} {le : α → α → Bool} {a x : α} {l : List α}
    (h : x ∈ sInsert le a l) : x = a ∨ x ∈ l := by
  have := (sInsert_perm le a l).mem_iff.mp h
  simpa using this

/-- sInsert preserves sortedness for a total and transitive comparison. -/
theorem sInsert_pairwise {α : Type} {le : α → α → Bool}
    (htot : ∀ x y, le x y = true ∨ le y x = true)
    (htr : ∀ x y z, le x y = true → le y z = true → le x z = true)
    (a : α) {l : List α} (hl : l.Pairwise (fun x y => le x y = true)) :
    (sInsert le a l).Pairwise (fun x y => le x y = true) := by
  induction l with
  | nil => simp [sInsert]
  | cons b l ih =>
    rcases List.pairwise_cons.mp hl with ⟨hb, hl'⟩
    simp only [sInsert]
    split
    next hab =>
      refine List.pairwise_cons.mpr ⟨?_, hl⟩
      intro x hx
      rcases List.mem_cons.mp hx with rfl | hx
      · exact hab
      · exact htr a b x hab (hb x hx)
    next hab =>
      have hba : le b a = true := (htot a b).resolve_left hab
      refine List.pairwise_cons.mpr ⟨?_, ih hl'⟩
      intro x hx
      rcases mem_sInsert hx with rfl | hx
      · exact hba
      · exact hb x hx

/-- sSort sorts for a total and transitive comparison. -/
theorem sSort_pairwise {α : Type} {le : α → α → Bool}
    (htot : ∀ x y, le x y = true ∨ le y x = true)
    (htr : ∀ x y z, le x y = true → le y z = true → le x z = true)
    (l : List α) : (sSort le l).Pairwise (fun x y => le x y = true) := by
  induction l with
  | nil => simp [sSort]
  | cons a l ih => exact sInsert_pairwise htot htr a ih

/-- The dict built from the drained results does not depend on the arrival
order as long as the urls are pairwise distinct. -/
theorem foldl_update_perm {l₁ l₂ : List (String × ℚ)} (h : l₁.Perm l₂)
    (hn : (l₁.map Prod.fst).Nodup) (d : String → Option ℚ) :
    l₁.foldl (fun (d : String → Option ℚ) (p : String × ℚ) =>
        Function.update d p.1 (some p.2)) d =
      l₂.foldl (fun (d : String → Option ℚ) (p : String × ℚ) =>
        Function.update d p.1 (some p.2)) d := by
  induction h generalizing d with
  | nil => rfl
  | cons x h ih =>
    simp only [List.foldl_cons]
    simp only [List.map_cons, List.nodup_cons] at hn
    exact ih hn.2 _
  | swap x y l =>
    simp only [List.foldl_cons]
    simp only [List.map_cons, List.nodup_cons, List.mem_cons] at hn
    have hxy : y.1 ≠ x.1 := fun hc => hn.1 (Or.inl hc)
    rw [Function.update_comm hxy]
  | trans h₁ h₂ ih₁ ih₂ =>
    exact (ih₁ hn d).trans (ih₂ ((h₁.map Prod.fst).nodup hn) d)

/-- ratesDict is arrival order independent for distinct urls. -/
theorem ratesDict_perm {l₁ l₂ : List (String × ℚ)} (h : l₁.Perm l₂)
    (hn : (l₁.map Prod.fst).Nodup) : ratesDict l₁ = ratesDict l₂ :=
  foldl_update_perm h hn _

/-- Any value stored in the rates dict came from some arrival pair. -/
theorem ratesDict_mem {arr : List (String × ℚ)} {d : String → Option ℚ}
    {u : String} {q : ℚ}
    (h : arr.foldl (fun (d : String → Option ℚ) (p : String × ℚ) =>
        Function.update d p.1 (some p.2)) d u = some q) :
    (u, q) ∈ arr ∨ d u = some q := by
  induction arr generalizing d with
  | nil => exact Or.inr h
  | cons p l ih =>
    simp only [List.foldl_cons] at h
    rcases ih h with hmem | hupd
    · exact Or.inl (List.mem_cons_of_mem _ hmem)
    · by_cases hu : u = p.1
      · subst hu
        simp [Function.update] at hupd
        subst hupd
        exact Or.inl (List.mem_cons_self _ _)
      · rw [Function.update_noteq hu] at hupd
        exact Or.inr hupd

/-- Rates read back from the collected results are nonnegative whenever the
posted rates are. -/
theorem ratesFromArrivals_nonneg {arr : List (String × ℚ)}
    (hnn : ∀ p ∈ arr, 0 ≤ p.2) (u : String) : 0 ≤ ratesFromArrivals arr u := by
  unfold ratesFromArrivals
  cases h : ratesDict arr u with
  | none => simp
  | some q =>
    rcases ratesDict_mem h with hmem | hd
    · simpa using hnn _ hmem
    · simp at hd

/-- For nonnegative rates, the zero rate records are exactly the records not
rated positive, as the two comprehensions of the rate merge step assume. -/
theorem rate_filter_zero_eq (rates : String → ℚ) (mirrors : List Mirror)
    (hnn : ∀ u, 0 ≤ rates u) :
    mirrors.filter (fun m => decide (rates m.url = 0)) =
      mirrors.filter (fun m => !decide (0 < rates m.url)) := by
  apply List.filter_congr
  intro m _
  rcases (hnn m.url).lt_or_eq with h | h
  · simp [h, h.ne']
  · simp [← h]

/-- The merge step of ServerStatus.rate permutes its input when every rate
is nonnegative. -/
theorem rate_perm_of_nonneg (rates : String → ℚ) (mirrors : List Mirror)
    (hnn : ∀ u, 0 ≤ rates u) :
    (ServerStatus.rate rates mirrors).Perm mirrors := by
  by_cases he : mirrors.isEmpty
  · simp [ServerStatus.rate, he]
  · have hre : ServerStatus.rate rates mirrors =
        sSort (fun a b => decide (rates b.url ≤ rates a.url))
          (mirrors.filter (fun m => decide (0 < rates m.url))) ++
          mirrors.filter (fun m => decide (rates m.url = 0)) := by
      simp [ServerStatus.rate, he]
    rw [hre, rate_filter_zero_eq rates mirrors hnn]
    exact List.Perm.trans ((sSort_perm _ _).append_right _)
      (List.filter_append_perm (fun m => decide (0 < rates m.url)) mirrors)

/-- C1: given the collected url to rate mapping of one rating pass, with one
result per url (distinct urls) and nonnegative measured rates, the rate
method returns a permutation of its input, its result does not depend on the
arrival order of the probe results, and it consists of the positively rated
records sorted by rate descending followed by the zero rated records as a
subsequence of the input (original order).  The nonnegativity hypothesis
reflects that a measured rate is a byte count divided by a positive elapsed
time, or zero on failure. -/
theorem C1_rate_grouped_permutation (mirrors : List Mirror)
    (arr arr2 : List (String × ℚ)) (hperm : arr.Perm arr2)
    (hnodup : (arr.map Prod.fst).Nodup)
    (hnn : ∀ p ∈ arr, 0 ≤ p.2) :
    ServerStatus.rate (ratesFromArrivals arr) mirrors =
      ServerStatus.rate (ratesFromArrivals arr2) mirrors ∧
    (ServerStatus.rate (ratesFromArrivals arr) mirrors).Perm mirrors ∧
    ∃ pos zer : List Mirror,
      ServerStatus.rate (ratesFromArrivals arr) mirrors = pos ++ zer ∧
      (∀ m ∈ pos, 0 < ratesFromArrivals arr m.url) ∧
      pos.Pairwise
        (fun a b => ratesFromArrivals arr b.url ≤ ratesFromArrivals arr a.url) ∧
      (∀ m ∈ zer, ratesFromArrivals arr m.url = 0) ∧
      zer.Sublist mirrors := by
  have hfun : ratesFromArrivals arr = ratesFromArrivals arr2 := by
    funext u
    unfold ratesFromArrivals
    rw [ratesDict_perm hperm hnodup]
  have hr : ∀ u, 0 ≤ ratesFromArrivals arr u := ratesFromArrivals_nonneg hnn
  refine ⟨by rw [hfun], rate_perm_of_nonneg _ _ hr, ?_⟩
  refine ⟨sSort (fun a b =>
      decide (ratesFromArrivals arr b.url ≤ ratesFromArrivals arr a.url))
      (mirrors.filter (fun m => decide (0 < ratesFromArrivals arr m.url))),
    mirrors.filter (fun m => decide (ratesFromArrivals arr m.url = 0)),
    ?_, ?_, ?_, ?_, List.filter_sublist mirrors⟩
  · by_cases he : mirrors.isEmpty
    · have : mirrors = [] := List.isEmpty_iff.mp he
      subst this
      simp [ServerStatus.rate, sSort]
    · simp [ServerStatus.rate, he]
  · intro m hm
    have hmem := (sSort_perm _ _).mem_iff.mp hm
    have := (List.mem_filter.mp hmem).2
    simpa using this
  · have hp := @sSort_pairwise Mirror
      (fun a b : Mirror =>
        decide (ratesFromArrivals arr b.url ≤ ratesFromArrivals arr a.url))
      (fun x y => by
        rcases le_total (ratesFromArrivals arr y.url) (ratesFromArrivals arr x.url)
          with h | h
        · exact Or.inl (by simpa using h)
        · exact Or.inr (by simpa using h))
      (fun x y z hxy hyz => by
        simp only [decide_eq_true_eq] at hxy hyz ⊢
        exact le_trans hyz hxy)
      (mirrors.filter (fun m => decide (0 < ratesFromArrivals arr m.url)))
    exact hp.imp (fun h => by simpa using h)
  · intro m hm
    have := (List.mem_filter.mp hm).2
    simpa using this

/-- Concrete arrival list for the C1 witness. -/
def arrW : List (String × ℚ) := [("https://a.example/", 5), ("https://b.example/", 0)]

/-- Concrete permuted arrival list for the C1 witness. -/
def arrW2 : List (String × ℚ) := [("https://b.example/", 0), ("https://a.example/", 5)]

/-- Witness for C1 at a concrete batch of two records and two probe results
arriving in either order. -/
theorem C1_rate_grouped_permutation_witness :
    (ServerStatus.rate (ratesFromArrivals arrW) [mA, mB]).Perm [mA, mB] :=
  (C1_rate_grouped_permutation [mA, mB] arrW arrW2 (by decide) (by decide)
    (by decide)).2.1

/-- A table row yields a record exactly when it has six td cells. -/
theorem parseRow_isSome (db : CountryDB) (r : HtmlRow) :
    (parseRow db r).isSome = true ↔ r.tds.length = 6 := by
  obtain ⟨tds⟩ := r
  rcases tds with _ | ⟨a, _ | ⟨b, _ | ⟨c, _ | ⟨d, _ | ⟨e, _ | ⟨f, _ | g⟩⟩⟩⟩⟩⟩ <;>
    simp [parseRow]

/-- A filterMap keeps the full length exactly when the function succeeds on
every element. -/
theorem length_filterMap_eq_iff {α β : Type} {f : α → Option β} {l : List α} :
    (l.filterMap f).length = l.length ↔ ∀ a ∈ l, (f a).isSome = true := by
  induction l with
  | nil => simp
  | cons a l ih =>
    cases h : f a with
    | none =>
      have hle := List.length_filterMap_le f l
      simp only [List.filterMap_cons, h, List.length_cons]
      constructor
      · intro hlen
        omega
      · intro hall
        have hcontr := hall a (List.mem_cons_self a l)
        rw [h] at hcontr
        simp at hcontr
    | some b =>
      simp only [List.filterMap_cons, h, List.length_cons]
      constructor
      · intro hlen
        intro x hx
        rcases List.mem_cons.mp hx with rfl | hx
        · simp [h]
        · exact (ih.mp (by omega)) x hx
      · intro hall
        have := ih.mpr (fun x hx => hall x (List.mem_cons_of_mem a hx))
        omega

/-- C3 (corrected): the total field of a snapshot built by get_server_data
counts every tr row of the table, header rows included, so it is an upper
bound on the length of the servers list, with equality exactly when every
row has six td cells. -/
theorem C3_total_counts_rows (db : CountryDB) (hs : List String)
    (rows : List HtmlRow) (dt : String) :
    (get_server_data db hs rows dt).total = rows.length ∧
    (get_server_data db hs rows dt).servers.length ≤
      (get_server_data db hs rows dt).total ∧
    ((get_server_data db hs rows dt).servers.length =
        (get_server_data db hs rows dt).total ↔ ∀ r ∈ rows, r.tds.length = 6) := by
  refine ⟨rfl, List.length_filterMap_le _ _, ?_⟩
  have h := @length_filterMap_eq_iff HtmlRow Mirror (parseRow db) rows
  constructor
  · intro hlen r hr
    exact (parseRow_isSome db r).mp (h.mp hlen r hr)
  · intro hall
    exact h.mpr (fun r hr => (parseRow_isSome db r).mpr (hall r hr))

/-- Counterexample to C3 as stated: a table with one header row and one data
row produces a snapshot whose total is 2 while its servers list has one
record. -/
theorem C3_counterexample :
    (get_server_data db0 [] [rowHeader, rowData] "ts").total = 2 ∧
    (get_server_data db0 [] [rowHeader, rowData] "ts").servers.length = 1 ∧
    (2 : ℕ) ≠ 1 := by
  refine ⟨by decide, by decide, by decide⟩

/-- C6 (confirmed): country code resolution is total; it follows the chain
exact name, common name, official name, alias table, sentinel, and it never
returns the empty string as long as the database lookups only return
nonempty codes.  Totality and the absence of exceptions hold by construction
because every lookup miss in the source raises a KeyError that the chain of
except branches catches. -/
theorem C6_get_country_code_total (db : CountryDB) (c : String)
    (h1 : ∀ s cc, db.byName s = some cc → cc ≠ "")
    (h2 : ∀ s cc, db.byCommon s = some cc → cc ≠ "")
    (h3 : ∀ s cc, db.byOfficial s = some cc → cc ≠ "") :
    get_country_code db c ≠ "" ∧
    get_country_code db c =
      (((db.byName c).or (db.byCommon c)).or (db.byOfficial c)).getD
        (countryAlias c) ∧
    countryAlias c ≠ "" := by
  have halias : countryAlias c ≠ "" := by
    unfold countryAlias
    split
    · decide
    · split
      · decide
      · split
        · decide
        · decide
  refine ⟨?_, ?_, halias⟩ <;> unfold get_country_code
  · cases hn : db.byName c with
    | some cc => exact h1 c cc hn
    | none =>
      cases hc : db.byCommon c with
      | some cc => exact h2 c cc hc
      | none =>
        cases ho : db.byOfficial c with
        | some cc => exact h3 c cc ho
        | none => exact halias
  · cases hn : db.byName c with
    | some cc => simp [Option.or]
    | none =>
      cases hc : db.byCommon c with
      | some cc => simp [Option.or]
      | none =>
        cases ho : db.byOfficial c with
        | some cc => simp [Option.or]
        | none => simp [Option.or]

/-- Witness for C6 at the empty database and the USA alias. -/
theorem C6_get_country_code_total_witness : get_country_code db0 "USA" ≠ "" :=
  (C6_get_country_code_total db0 "USA"
    (fun s cc h => by simp [db0] at h)
    (fun s cc h => by simp [db0] at h)
    (fun s cc h => by simp [db0] at h)).1

/-- Every loop iteration of get_mirrorlist clears the no-mirrors flag. -/
theorem mirrorlistStep_no_mirrors (ic : Bool) (st : MLState) (m : Mirror) :
    (mirrorlistStep ic st m).no_mirrors = false := by
  simp only [mirrorlistStep]
  split
  · split <;> rfl
  · rfl

/-- The no-mirrors flag after the loop is set exactly when it was set before
and no record was traversed. -/
theorem mirrorlist_foldl_no_mirrors (ic : Bool) (ms : List Mirror) (st : MLState) :
    (ms.foldl (mirrorlistStep ic) st).no_mirrors = (st.no_mirrors && ms.isEmpty) := by
  induction ms generalizing st with
  | nil => simp
  | cons m ms ih =>
    rw [List.foldl_cons, ih, mirrorlistStep_no_mirrors]
    simp

/-- One loop iteration appends some tag text followed by the Server entry of
the traversed record. -/
theorem mirrorlistStep_text (ic : Bool) (st : MLState) (m : Mirror) :
    ∃ tag : String, (mirrorlistStep ic st m).text = st.text ++ (tag ++ serverEntry m) := by
  by_cases hic : ic
  · by_cases hc : st.country ≠ some (m.country ++ " [" ++ m.country_code ++ "]")
    · by_cases ht : pyTruthyStr st.country
      · refine ⟨"\x0a" ++ ("# " ++ (m.country ++ " [" ++ m.country_code ++ "]") ++ "\x0a"),
          String.ext ?_⟩
        simp [mirrorlistStep, hic, hc, ht]
      · refine ⟨"# " ++ (m.country ++ " [" ++ m.country_code ++ "]") ++ "\x0a",
          String.ext ?_⟩
        simp [mirrorlistStep, hic, hc, ht]
    · refine ⟨"", String.ext ?_⟩
      simp [mirrorlistStep, hic, hc]
  · refine ⟨"", String.ext ?_⟩
    simp [mirrorlistStep, hic]

/-- The text after the loop is the initial text followed by one tagged
Server entry per record, in list order. -/
theorem mirrorlist_foldl_text (ic : Bool) (ms : List Mirror) :
    ∀ st : MLState, ∃ tags : List String, tags.length = ms.length ∧
      (ms.foldl (mirrorlistStep ic) st).text =
        st.text ++ concatStrings ((tags.zip ms).map (fun p => p.1 ++ serverEntry p.2)) := by
  induction ms with
  | nil =>
    intro st
    exact ⟨[], rfl, by apply String.ext; simp [concatStrings]⟩
  | cons m ms ih =>
    intro st
    obtain ⟨tags, hlen, htext⟩ := ih (mirrorlistStep ic st m)
    obtain ⟨tag, hstep⟩ := mirrorlistStep_text ic st m
    refine ⟨tag :: tags, by simp [hlen], ?_⟩
    rw [List.foldl_cons, htext, hstep]
    apply String.ext
    simp [concatStrings, List.zip]

/-- C10 (confirmed): get_mirrorlist returns None exactly when the record
sequence is empty, and otherwise returns the banner followed by one
Server entry line per record in the order given, each preceded by its
(possibly empty) country tag text. -/
theorem C10_get_mirrorlist_lines (header : String) (ic : Bool)
    (mirrors : List Mirror) :
    (ServerStatus.get_mirrorlist header ic mirrors = none ↔ mirrors = []) ∧
    ∃ tags : List String, tags.length = mirrors.length ∧
      ServerStatus.get_mirrorlist header ic mirrors =
        (if mirrors.isEmpty then none
         else some (header ++
           concatStrings ((tags.zip mirrors).map (fun p => p.1 ++ serverEntry p.2)))) := by
  obtain ⟨tags, hlen, htext⟩ :=
    mirrorlist_foldl_text ic mirrors (⟨header, none, true⟩ : MLState)
  have hnm := mirrorlist_foldl_no_mirrors ic mirrors (⟨header, none, true⟩ : MLState)
  constructor
  · simp only [ServerStatus.get_mirrorlist]
    rw [hnm]
    by_cases he : mirrors.isEmpty
    · simp [he, List.isEmpty_iff.mp he]
    · have hne : mirrors ≠ [] := by
        intro hh
        subst hh
        simp at he
      simp [he, hne]
  · refine ⟨tags, hlen, ?_⟩
    simp only [ServerStatus.get_mirrorlist]
    rw [hnm]
    by_cases he : mirrors.isEmpty
    · simp [he]
    · rw [htext]
      simp [he]

/-- On a record that has the protocol field whenever the criterion is
truthy, the protocol stage computes its total predicate without raising. -/
theorem keepProtocolsE_eq (protocols : Option (List String)) (m : Mirror)
    (h : pyTruthyList protocols = true → m.protocol.isSome = true) :
    keepProtocolsE protocols m = .ok (keepProtocolsB protocols m) := by
  by_cases ht : pyTruthyList protocols
  · have hsome := h ht
    cases hp : m.protocol with
    | none =>
      rw [hp] at hsome
      simp at hsome
    | some p => simp [keepProtocolsE, keepProtocolsB, ht, Mirror.getProtocol, hp]
  · simp [keepProtocolsE, keepProtocolsB, ht]

/-- On a record that has the last sync field whenever the criterion is
truthy, the age stage computes its total predicate without raising. -/
theorem keepAgeE_eq (t : ℚ) (age : Option ℚ) (m : Mirror)
    (h : pyTruthyNum age = true → m.last_sync.isSome = true) :
    keepAgeE t age m = .ok (keepAgeB t age m) := by
  by_cases ht : pyTruthyNum age
  · have hsome := h ht
    cases hp : m.last_sync with
    | none =>
      rw [hp] at hsome
      simp at hsome
    | some ls => simp [keepAgeE, keepAgeB, ht, Mirror.getLastSync, hp]
  · simp [keepAgeE, keepAgeB, ht]

/-- On a record with the needed fields, the filter loop body computes the
conjunction of the five applied criteria. -/
theorem filterKeep_eq (research : String → String → Bool) (t : ℚ)
    (countries incl excl : Option (List String)) (age : Option ℚ)
    (protocols : Option (List String)) (m : Mirror)
    (hp : pyTruthyList protocols = true → m.protocol.isSome = true)
    (ha : pyTruthyNum age = true → m.last_sync.isSome = true) :
    ServerStatus.filterKeep research t countries incl excl age protocols m =
      .ok (passesAll research t countries incl excl age protocols m) := by
  by_cases hc : keepCountriesB countries m <;>
  by_cases hb : keepProtocolsB protocols m <;>
  by_cases hi : keepIncludeB research incl m <;>
  by_cases he : keepExcludeB research excl m <;>
    simp [ServerStatus.filterKeep, stageSeq, passesAll, hc, hb, hi, he,
      keepProtocolsE_eq protocols m hp, keepAgeE_eq t age m ha]

/-- C5 (corrected): when every supplied criterion is applied in its truthy
form (an empty criterion list or a zero age bound is treated by the code as
absent) and every record carries the fields the truthy criteria read, the
filter yields exactly the input records satisfying the conjunction of the
applied criteria: output is a sublist of the input, every emitted record
satisfies every applied criterion, and every input record satisfying all of
them is emitted. -/
theorem C5_filter_conjunction_law (research : String → String → Bool) (t : ℚ)
    (mirrors : List Mirror) (countries incl excl : Option (List String))
    (age : Option ℚ) (protocols : Option (List String))
    (hfield : ∀ m ∈ mirrors,
      (pyTruthyList protocols = true → m.protocol.isSome = true) ∧
      (pyTruthyNum age = true → m.last_sync.isSome = true)) :
    ServerStatus.filter research t mirrors countries incl excl age protocols =
      .ok (mirrors.filter (passesAll research t countries incl excl age protocols)) := by
  induction mirrors with
  | nil => rfl
  | cons m ms ih =>
    have hm := hfield m (List.mem_cons_self m ms)
    have ihh := ih (fun x hx => hfield x (List.mem_cons_of_mem m hx))
    rw [List.filter_cons]
    by_cases hpass : passesAll research t countries incl excl age protocols m
    · simp [ServerStatus.filter,
        filterKeep_eq research t countries incl excl age protocols m hm.1 hm.2,
        hpass, ihh, Except.map]
    · simp [ServerStatus.filter,
        filterKeep_eq research t countries incl excl age protocols m hm.1 hm.2,
        hpass, ihh, Except.map]

/-- Witness for C5 at one record matched by a country criterion. -/
theorem C5_filter_conjunction_law_witness :
    ServerStatus.filter research0 0 [mSync0] (some ["SE"]) none none none none =
      .ok (List.filter (passesAll research0 0 (some ["SE"]) none none none none)
        [mSync0]) :=
  C5_filter_conjunction_law research0 0 [mSync0] (some ["SE"]) none none none none
    (by decide)

/-- Counterexample to C5 as stated: with a supplied age bound of zero hours
the code treats the criterion as absent (Python truthiness of 0), so a
record whose last sync lies 3600 seconds in the past is emitted even though
it violates the supplied age criterion. -/
theorem C5_counterexample :
    ServerStatus.filter research0 3600 [mSync0] none none none (some 0) none =
      .ok [mSync0] ∧
    mSync0.last_sync = some 0 ∧
    ¬ ageCriterionSpec 3600 0 0 := by
  refine ⟨by decide, by decide, ?_⟩
  unfold ageCriterionSpec
  norm_num

/-- C7 (corrected): the value filter returns is a one-shot generator: its
first full iteration yields exactly the records that a recomputation of the
filter yields, and a second iteration of the same generator object yields
nothing. -/
theorem C7_filter_generator_one_shot (research : String → String → Bool) (t : ℚ)
    (mirrors : List Mirror) (countries incl excl : Option (List String))
    (age : Option ℚ) (protocols : Option (List String)) (g : PyGen)
    (h : ServerStatus.filterGen research t mirrors countries incl excl age protocols
      = .ok g) :
    ServerStatus.filter research t mirrors countries incl excl age protocols =
      .ok g.iterate.1 ∧
    g.iterate.2.iterate.1 = [] := by
  refine ⟨?_, rfl⟩
  unfold ServerStatus.filterGen at h
  cases hf : ServerStatus.filter research t mirrors countries incl excl age protocols with
  | error e =>
    rw [hf] at h
    simp [Except.map] at h
  | ok l =>
    rw [hf] at h
    simp [Except.map] at h
    rw [← h]
    simp [PyGen.iterate]

/-- Witness for C7 at one record and no criteria. -/
theorem C7_filter_generator_one_shot_witness :
    (ServerStatus.filter research0 0 [mSync0] none none none none none =
      .ok (PyGen.mk [mSync0]).iterate.1) ∧
    ((PyGen.mk [mSync0]).iterate.2.iterate.1 = []) :=
  C7_filter_generator_one_shot research0 0 [mSync0] none none none none none
    (PyGen.mk [mSync0]) (by decide)

/-- Counterexample to C7 as stated: a generator over one record yields that
record on the first iteration and nothing on the second, so the second
iteration differs from the first. -/
theorem C7_counterexample :
    ServerStatus.filterGen research0 0 [mSync0] none none none none none =
      .ok (PyGen.mk [mSync0]) ∧
    (PyGen.mk [mSync0]).iterate.1 = [mSync0] ∧
    (PyGen.mk [mSync0]).iterate.2.iterate.1 ≠ (PyGen.mk [mSync0]).iterate.1 := by
  refine ⟨by decide, by decide, by decide⟩

/-- A record list the filter fully consumed without raising was accepted or
skipped record by record without raising. -/
theorem filter_ok_keep {research : String → String → Bool} {t : ℚ}
    {countries incl excl : Option (List String)} {age : Option ℚ}
    {protocols : Option (List String)} {mirrors : List Mirror} {l : List Mirror}
    (h : ServerStatus.filter research t mirrors countries incl excl age protocols
      = .ok l)
    {m : Mirror} (hm : m ∈ mirrors) :
    ∃ b, ServerStatus.filterKeep research t countries incl excl age protocols m
      = .ok b := by
  induction mirrors generalizing l with
  | nil => cases hm
  | cons m0 ms ih =>
    rcases List.mem_cons.mp hm with rfl | hm'
    · cases hk : ServerStatus.filterKeep research t countries incl excl age protocols m with
      | error e =>
        simp [ServerStatus.filter, hk] at h
      | ok b => exact ⟨b, rfl⟩
    · cases hk : ServerStatus.filterKeep research t countries incl excl age protocols m0 with
      | error e =>
        simp [ServerStatus.filter, hk] at h
      | ok b =>
        cases b with
        | true =>
          simp only [ServerStatus.filter, hk] at h
          cases hf : ServerStatus.filter research t ms countries incl excl age protocols with
          | error e =>
            rw [hf] at h
            simp [Except.map] at h
          | ok l' => exact ih hf hm'
        | false =>
          simp only [ServerStatus.filter, hk] at h
          exact ih h hm'

/-- C8 (corrected): a record that lacks the last_sync field and survives all
earlier criteria makes the filter raise a KeyError as soon as a truthy age
criterion is supplied; the age branch is not total over records missing the
field. -/
theorem C8_missing_last_sync_raises (research : String → String → Bool) (t : ℚ)
    (countries incl excl protocols : Option (List String)) (a : Option ℚ)
    (m : Mirror) (mirrors : List Mirror)
    (hm : m ∈ mirrors) (ha : pyTruthyNum a = true) (hns : m.last_sync = none)
    (hpass : ServerStatus.filterKeep research t countries incl excl none protocols m
      = .ok true) :
    ∃ e, ServerStatus.filter research t mirrors countries incl excl a protocols
      = .error e := by
  have hkeep : ServerStatus.filterKeep research t countries incl excl a protocols m
      = .error .keyError := by
    by_cases hc : keepCountriesB countries m
    · cases hkp : keepProtocolsE protocols m with
      | error e => simp [ServerStatus.filterKeep, hc, hkp, stageSeq] at hpass
      | ok bp =>
        cases bp with
        | false => simp [ServerStatus.filterKeep, hc, hkp, stageSeq] at hpass
        | true =>
          by_cases hi : keepIncludeB research incl m
          · by_cases he : keepExcludeB research excl m
            · simp only [ServerStatus.filterKeep, hc, if_true, hkp, stageSeq, hi, he]
              simp [keepAgeE, ha, Mirror.getLastSync, hns]
            · simp [ServerStatus.filterKeep, hc, hkp, stageSeq, hi, he, keepAgeE] at hpass
          · simp [ServerStatus.filterKeep, hc, hkp, stageSeq, hi] at hpass
    · simp [ServerStatus.filterKeep, hc] at hpass
  cases hres : ServerStatus.filter research t mirrors countries incl excl a protocols with
  | error e => exact ⟨e, rfl⟩
  | ok l =>
    obtain ⟨b, hb⟩ := filter_ok_keep hres hm
    rw [hkeep] at hb
    simp at hb

/-- Witness for C8 at one record lacking last_sync and an age bound of one
hour. -/
theorem C8_missing_last_sync_raises_witness :
    ∃ e, ServerStatus.filter research0 0 [mNoSync] none none none (some 1) none
      = .error e :=
  C8_missing_last_sync_raises research0 0 none none none none (some 1) mNoSync
    [mNoSync] (by decide) (by decide) (by decide) (by decide)

/-- Counterexample to C8 as stated: filtering a record without last_sync
with a supplied age criterion raises a KeyError instead of keeping the
record. -/
theorem C8_counterexample :
    ServerStatus.filter research0 0 [mNoSync] none none none (some 1) none =
      .error .keyError := by
  decide

/-- The key extraction pass pairs every record with its key, in order. -/
theorem keyedList_ok_snd {κ : Type} {key : Mirror → Except PyError κ}
    {ms : List Mirror} {kl : List (κ × Mirror)}
    (h : keyedList key ms = .ok kl) : kl.map Prod.snd = ms := by
  induction ms generalizing kl with
  | nil =>
    simp only [keyedList, Except.ok.injEq] at h
    rw [← h]
    rfl
  | cons m ms ih =>
    simp only [keyedList] at h
    cases hk : key m with
    | error e =>
      rw [hk] at h
      simp at h
    | ok k =>
      rw [hk] at h
      cases hkl : keyedList key ms with
      | error e =>
        rw [hkl] at h
        simp [Except.map] at h
      | ok kl' =>
        rw [hkl] at h
        simp only [Except.map, Except.ok.injEq] at h
        rw [← h]
        simp [ih hkl]

/-- A successful list.sort by key returns a permutation of the list. -/
theorem pySortByKey_ok_perm {κ : Type} {lt : κ → κ → Bool} {rev : Bool}
    {key : Mirror → Except PyError κ} {l out : List Mirror}
    (h : pySortByKey lt rev key l = .ok out) : out.Perm l := by
  unfold pySortByKey at h
  cases hk : keyedList key l with
  | error e =>
    rw [hk] at h
    simp at h
  | ok keyed =>
    rw [hk] at h
    simp only [Except.ok.injEq] at h
    rw [← h]
    have hperm :=
      (sSort_perm (fun a b : κ × Mirror =>
        if rev then !lt a.1 b.1 else !lt b.1 a.1) keyed).map Prod.snd
    rw [keyedList_ok_snd hk] at hperm
    exact hperm

/-- A successful field keyed sort returns a permutation of the snapshot
list. -/
theorem sortList_ok_perm {rates : String → ℚ} {snap : List Mirror} {b : SortBy}
    {L : List Mirror} (hb1 : b ≠ .rate) (hb2 : b ≠ .unknown)
    (h : ServerStatus.sortList rates snap b = .ok L) : L.Perm snap := by
  cases b
  case rate => exact absurd rfl hb1
  case unknown => exact absurd rfl hb2
  case age => exact pySortByKey_ok_perm h
  case country => exact pySortByKey_ok_perm h
  case country_code => exact pySortByKey_ok_perm h
  case delay => exact pySortByKey_ok_perm h
  case score => exact pySortByKey_ok_perm h

/-- C4 (corrected): filtering never touches the snapshot list, and neither
does sorting a materialized generator argument, sorting by rate (which
builds fresh lists), or an unknown sort key; but sorting the snapshot list
itself by one of the five field keys reorders that list in place: after a
successful call the snapshot holds exactly the returned sorted permutation
of its previous records. -/
theorem C4_sort_mutation (rates : String → ℚ) (snap : List Mirror) (g : PyGen)
    (b : SortBy) (research : String → String → Bool) (t : ℚ)
    (countries incl excl : Option (List String)) (age : Option ℚ)
    (protocols : Option (List String)) :
    (∀ out, ServerStatus.sortGen rates snap g b = .ok out → out.1 = snap) ∧
    (∀ out, ServerStatus.sortStore rates snap .rate = .ok out → out.1 = snap) ∧
    (∀ out, ServerStatus.sortStore rates snap .unknown = .ok out → out.1 = snap) ∧
    (∀ out, b ≠ .rate → b ≠ .unknown →
      ServerStatus.sortStore rates snap b = .ok out →
      out.1 = out.2 ∧ out.2.Perm snap) ∧
    (ServerStatus.filterStore research t snap countries incl excl age protocols).1
      = snap := by
  refine ⟨?_, ?_, ?_, ?_, rfl⟩
  · intro out hout
    unfold ServerStatus.sortGen at hout
    cases hs : ServerStatus.sortList rates g.items b with
    | error e =>
      rw [hs] at hout
      simp [Except.map] at hout
    | ok L =>
      rw [hs] at hout
      simp only [Except.map, Except.ok.injEq] at hout
      rw [← hout]
  · intro out hout
    simp only [ServerStatus.sortStore, ServerStatus.sortList, Except.map,
      Except.ok.injEq] at hout
    rw [← hout]
  · intro out hout
    simp only [ServerStatus.sortStore, Except.ok.injEq] at hout
    rw [← hout]
  · intro out hb1 hb2 hout
    have hform : ServerStatus.sortStore rates snap b =
        (ServerStatus.sortList rates snap b).map (fun l => (l, l)) := by
      cases b
      case rate => exact absurd rfl hb1
      case unknown => exact absurd rfl hb2
      all_goals rfl
    rw [hform] at hout
    cases hs : ServerStatus.sortList rates snap b with
    | error e =>
      rw [hs] at hout
      simp [Except.map] at hout
    | ok L =>
      rw [hs] at hout
      simp only [Except.map, Except.ok.injEq] at hout
      rw [← hout]
      exact ⟨rfl, sortList_ok_perm hb1 hb2 hs⟩

/-- Witness for C4 at the country sort of a two record snapshot. -/
theorem C4_sort_mutation_witness :
    (([mA, mB] : List Mirror) = [mA, mB]) ∧ ([mA, mB] : List Mirror).Perm [mB, mA] :=
  (C4_sort_mutation rates0 [mB, mA] (PyGen.mk []) .country research0 0
    none none none none none).2.2.2.1 ([mA, mB], [mA, mB])
    (by decide) (by decide) (by decide)

/-- Counterexample to C4 as stated: sorting the snapshot list by country
changes the snapshot list itself, from record order B A to record order
A B. -/
theorem C4_counterexample :
    ServerStatus.sortStore rates0 [mB, mA] .country = .ok ([mA, mB], [mA, mB]) ∧
    ([mA, mB] : List Mirror) ≠ [mB, mA] := by
  refine ⟨by decide, by decide⟩

/-- C2 (corrected): in every retrieve run with caching enabled in which the
cache was absent or stale, both fresh fetches succeeded and the cache write
fails, retrieve raises a ServerStatusError about caching, yet the freshly
fetched snapshot is already installed in json_obj and its fetch time in
json_mtime: the raise reaches the caller, but the snapshot is not
discarded. -/
theorem C2_cache_write_failure (ct stM : ℚ) (env : RetrieveEnv) (v1 v2 : PyVal)
    (hct : ct > 0)
    (hmiss : env.cacheStat = .missing ∨
      ∃ mt, env.cacheStat = .found mt ∧ ¬ env.now - mt < ct)
    (h1 : env.fetch1 = .ok v1) (h2 : env.fetch2 = .ok v2)
    (hw : env.writeOk = false) :
    ServerStatus.retrieve ct stM env =
      { jsonObj := some v2, jsonMtime := env.now, result := .sse .cacheWriteFail } := by
  unfold ServerStatus.retrieve retrieveFetchAndSave
  rcases hmiss with hmiss | ⟨mt, hfound, hstale⟩
  · simp [hct, hmiss, pyTruthyVal, h1, h2, hw]
  · simp [hct, hfound, hstale, pyTruthyVal, h1, h2, hw]

/-- Witness for C2 at a concrete run with a missing cache file. -/
theorem C2_cache_write_failure_witness :
    ServerStatus.retrieve 300 0 envC2 =
      { jsonObj := some (PyVal.raw true), jsonMtime := (1000 : ℚ),
        result := .sse .cacheWriteFail } :=
  C2_cache_write_failure 300 0 envC2 (.raw true) (.raw true) (by decide)
    (Or.inl rfl) rfl rfl rfl

/-- Counterexample to C2 as stated: after a successful fresh fetch, a failed
cache write makes retrieve end in a raised ServerStatusError rather than a
normal return, even though the fetched snapshot is still held in memory. -/
theorem C2_counterexample :
    (ServerStatus.retrieve 300 0 envC2).result = RResult.sse .cacheWriteFail ∧
    RResult.sse .cacheWriteFail ≠ RResult.ok ∧
    (ServerStatus.retrieve 300 0 envC2).jsonObj = some (PyVal.raw true) := by
  refine ⟨by decide, by decide, by decide⟩

